import Mathlib

/-!
Verification development for a dental-practice chatbot front-end and its
conversation-turn orchestration core.

Part 1 embeds the chat client page (the `Home` component and its `handleSend`
handler): the message list, the loading flag, the input field, the request
body sent to the backend, and the error-to-reply mapping.

Part 2 embeds, from the specification's words, the backend Conversation Turn
Controller (the agent / tool-call loop), its gateway and tool-registry
contracts, and the Transport Boundary, whose implementation files are not
part of the available sources.
-/

namespace Chatbot

/-- Message role in the chat client: the source type is the union
`'user' | 'assistant'`. -/
inductive Role where
  | user
  | assistant
deriving DecidableEq, Repr

/-- A chat message as kept in the client's `messages` state:
`{role, content, timestamp}`. The JS `Date` timestamp is modelled as a
natural-number tick. -/
structure Message where
  role : Role
  content : String
  timestamp : Nat
deriving DecidableEq, Repr

/-- An entry of the `conversation_history` request field: only `role` and
`content` survive the `messages.map((msg) => ({role, content}))` projection. -/
structure HistoryEntry where
  role : Role
  content : String
deriving DecidableEq, Repr

/-- The hard-coded initial assistant greeting from the `useState` initializer. -/
def initialGreeting : String :=
  "Hello! I'm your dental practice assistant. How can I help you today?"

/-- The client's relevant component state: `messages`, `input`, `isLoading`. -/
structure ChatState where
  messages : List Message
  input : String
  isLoading : Bool
deriving DecidableEq, Repr

/-- The initial component state: one assistant greeting message, empty input,
not loading. -/
def initialState : ChatState :=
  { messages := [{ role := Role.assistant, content := initialGreeting, timestamp := 0 }]
    input := ""
    isLoading := false }

/-- The axios timeout configured for the chat request (60 second timeout for
LLM responses, in milliseconds). -/
def axiosTimeoutMs : Nat := 60000

/-- The whitespace characters stripped by `String.prototype.trim` (the common
ASCII ones suffice for this embedding). -/
def isWhitespaceChar (c : Char) : Bool := c = ' ' || c = '\t' || c = '\n' || c = '\r'

/-- JavaScript `input.trim()`. -/
def jsTrim (s : String) : String :=
  String.mk (((s.toList.dropWhile isWhitespaceChar).reverse.dropWhile isWhitespaceChar).reverse)

/-- JavaScript `a || b` on strings: the empty string is falsy. -/
def strOr (a b : String) : String := if a = "" then b else a

/-- Optional-chaining access yielding `''` when absent. -/
def optStr : Option String → String
  | none => ""
  | some s => s

/-- The `error.response.data` payload: optional `detail` and `message` fields. -/
structure ErrorData where
  detail : Option String
  message : Option String
deriving DecidableEq, Repr

/-- The shape of an axios error as discriminated by `handleSend`'s catch
block: a server response with a status, a request that got no response
(with `error.code` and `error.message`), or anything else. -/
inductive SendError where
  | response (status : Nat) (data : Option ErrorData)
  | request (code : String) (message : String)
  | other (message : String)
deriving DecidableEq, Repr

/-- `error.response.data?.detail || error.response.data?.message || ''`. -/
def detailOf : Option ErrorData → String
  | none => ""
  | some d => strOr (optStr d.detail) (optStr d.message)

def fixed402 : String :=
  "I'm temporarily unavailable due to API service issues. Please try again in a few moments, or contact us directly at +1-555-0123."

def fixed401 : String :=
  "There's an authentication issue. Please refresh the page and try again."

def fixed500 : String :=
  "The server encountered an error. Please try again in a moment."

def fixed400 : String :=
  "There was an issue with your request. Please try rephrasing your message."

def fixedOtherStatus (status : Nat) : String :=
  s!"Server error ({status}). Please try again."

def fixedTimeoutMsg : String :=
  "The request took too long. This might be due to high demand. Please try again with a shorter message."

def fixedConnect : String :=
  "Unable to connect to the server. Please check your internet connection and try again."

def fixedUnexpected : String :=
  "An unexpected error occurred. Please try again."

/-- The message of the `Error` thrown when `response.data.response` is falsy. -/
def invalidResponseMsg : String := "Invalid response from server"

/-- The `errorContent` computed by `handleSend`'s catch block for a given
error shape. -/
def errorContentOf : SendError → String
  | SendError.response status data =>
      let detail := detailOf data
      if status = 402 then fixed402
      else if status = 401 then fixed401
      else if status = 500 then strOr detail fixed500
      else if status = 400 then strOr detail fixed400
      else strOr detail (fixedOtherStatus status)
  | SendError.request code msg =>
      if code = "ECONNABORTED" || msg.containsSubstr "timeout" then fixedTimeoutMsg
      else fixedConnect
  | SendError.other msg => strOr msg fixedUnexpected

/-- The outcome of the awaited POST: a response whose `data.response` field is
`some` string (possibly empty, which is falsy in JS) or absent, or a thrown
axios error. -/
inductive ServerOutcome where
  | success (response : Option String)
  | failure (e : SendError)
deriving DecidableEq, Repr

/-- The assistant content appended for an outcome: the server's response text
when truthy; otherwise the thrown `Error('Invalid response from server')`
reaches the catch block's final branch; a thrown axios error is mapped by
`errorContentOf`. -/
def replyOf : ServerOutcome → String
  | ServerOutcome.success (some r) =>
      if r.isEmpty then errorContentOf (SendError.other invalidResponseMsg) else r
  | ServerOutcome.success none => errorContentOf (SendError.other invalidResponseMsg)
  | ServerOutcome.failure e => errorContentOf e

/-- The request body `{message, conversation_history}` posted to
`/api/chat`. -/
structure ChatRequest where
  message : String
  conversation_history : List HistoryEntry
deriving DecidableEq, Repr

/-- The history projection `messages.map((msg) => ({role, content}))`,
computed from the state captured before the user message is appended. -/
def historyOf (st : ChatState) : List HistoryEntry :=
  st.messages.map (fun m => { role := m.role, content := m.content })

/-- The request `handleSend` posts, `none` when the guard
`!input.trim() || isLoading` returns early. -/
def requestOf (st : ChatState) : Option ChatRequest :=
  if (jsTrim st.input).isEmpty || st.isLoading then none
  else some { message := jsTrim st.input, conversation_history := historyOf st }

/-- The state while the POST is in flight: the trimmed user message has been
appended, the input cleared, and `isLoading` set. -/
def inFlightState (st : ChatState) (t1 : Nat) : ChatState :=
  { messages := st.messages ++ [{ role := Role.user, content := jsTrim st.input, timestamp := t1 }]
    input := ""
    isLoading := true }

/-- One complete run of `handleSend` for a resolved outcome: guard, append the
user message, await, append exactly one assistant message (reply or error
content), and clear `isLoading` in the `finally` block. `t1` and `t2` are the
two `new Date()` ticks. -/
def handleSend (st : ChatState) (o : ServerOutcome) (t1 t2 : Nat) : ChatState :=
  if (jsTrim st.input).isEmpty || st.isLoading then st
  else
    let mid := inFlightState st t1
    { mid with
        messages := mid.messages ++ [{ role := Role.assistant, content := replyOf o, timestamp := t2 }]
        isLoading := false }

/-- States reachable in the client: the initial render, typing into the input,
and a completed `handleSend` turn. -/
inductive Reachable : ChatState → Prop where
  | init : Reachable initialState
  | type (st : ChatState) (s : String) : Reachable st → Reachable { st with input := s }
  | send (st : ChatState) (o : ServerOutcome) (t1 t2 : Nat) :
      Reachable st → Reachable (handleSend st o t1 t2)

/-- Modelled from the spec: a tool-call request `{tool name, arguments}`
produced by the LLM Gateway; the backend Conversation Turn Controller sources
are not in the available files. Arguments are kept abstract as a string. -/
structure ToolCallRequest where
  name : String
  arguments : String
deriving DecidableEq, Repr

/-- Modelled from the spec: a ToolResult `{tool name, success flag, payload or
error description}` produced by the Tool Registry. -/
structure ToolResult where
  tool : String
  success : Bool
  payload : String
deriving DecidableEq, Repr

/-- Modelled from the spec: the typed provider-failure conditions of the
controller. -/
inductive ProviderError where
  | unavailable
  | authError
  | timeout
  | badResponse
deriving DecidableEq, Repr

/-- Modelled from the spec: a transcript message
`{role ∈ \x7buser, assistant, tool\x7d, content, optional structured tool-call
request or result}`. A tool-call request is folded into an assistant
message; each tool result is one tool message. -/
inductive TMessage where
  | userMsg (content : String)
  | assistantText (content : String)
  | assistantToolCalls (calls : List ToolCallRequest)
  | toolResultMsg (r : ToolResult)
deriving DecidableEq, Repr

/-- Modelled from the spec: the LLM Gateway response — either plain text or an
ordered list of tool-call requests; a failed gateway call is a typed
provider error. -/
inductive GatewayResponse where
  | text (content : String)
  | toolCalls (calls : List ToolCallRequest)
  | failure (e : ProviderError)
deriving DecidableEq, Repr

/-- Modelled from the spec: the outcome of one turn of the controller — a
terminal text reply, a `ConversationStalled` condition at the iteration cap,
or a typed provider failure. -/
inductive TurnOutcome where
  | reply (text : String)
  | stalled
  | failed (e : ProviderError)
deriving DecidableEq, Repr

/-- Modelled from the spec: the messages one tool-call iteration appends —
the assistant message folding the requests, then one ToolResult message per
call, preserving request order. `inv` is the Tool Registry's `invoke`. -/
def iterationMessages (inv : ToolCallRequest → ToolResult)
    (calls : List ToolCallRequest) : List TMessage :=
  TMessage.assistantToolCalls calls :: (calls.map inv).map TMessage.toolResultMsg

/-- Modelled from the spec: the controller's bounded loop. `gw i transcript`
is the gateway's response at iteration `i` for the given transcript (an
arbitrary gateway behavior); `fuel` is the remaining iteration budget. When
the budget is exhausted without a terminal text the turn is stalled; a
gateway failure aborts the turn leaving the transcript as it was at that
call. -/
def runLoop (gw : Nat → List TMessage → GatewayResponse)
    (inv : ToolCallRequest → ToolResult) (i : Nat) (transcript : List TMessage) :
    Nat → TurnOutcome × List TMessage
  | 0 => (TurnOutcome.stalled, transcript)
  | fuel + 1 =>
    match gw i transcript with
    | GatewayResponse.text s => (TurnOutcome.reply s, transcript ++ [TMessage.assistantText s])
    | GatewayResponse.failure e => (TurnOutcome.failed e, transcript)
    | GatewayResponse.toolCalls calls =>
        runLoop gw inv (i + 1) (transcript ++ iterationMessages inv calls) fuel

/-- Modelled from the spec: the controller's iteration cap (a hard cap in the
5–8 range). -/
def iterationCap : Nat := 8

/-- Modelled from the spec: `handleTurn(session, userText)` — append the user
message, then run the bounded loop with the given cap. -/
def handleTurn (gw : Nat → List TMessage → GatewayResponse)
    (inv : ToolCallRequest → ToolResult) (history : List TMessage)
    (userText : String) (cap : Nat) : TurnOutcome × List TMessage :=
  runLoop gw inv 0 (history ++ [TMessage.userMsg userText]) cap

/-- Modelled from the spec: the sequence of transcripts passed to the LLM
Gateway across the loop's iterations (one entry per gateway invocation). -/
def gatewayInputs (gw : Nat → List TMessage → GatewayResponse)
    (inv : ToolCallRequest → ToolResult) (i : Nat) (transcript : List TMessage) :
    Nat → List (List TMessage)
  | 0 => []
  | fuel + 1 =>
    transcript ::
      match gw i transcript with
      | GatewayResponse.toolCalls calls =>
          gatewayInputs gw inv (i + 1) (transcript ++ iterationMessages inv calls) fuel
      | _ => []

/-- A gateway behavior scripted in advance: at iteration `i` it requests the
`i`-th batch of tool calls, and returns the final text once the script is
exhausted. -/
def scriptGW (script : List (List ToolCallRequest)) (final : String) :
    Nat → List TMessage → GatewayResponse :=
  fun i _ =>
    match script.get? i with
    | some calls => GatewayResponse.toolCalls calls
    | none => GatewayResponse.text final

/-- The messages appended over a whole scripted run's tool-call iterations. -/
def scriptMessages (inv : ToolCallRequest → ToolResult) :
    List (List ToolCallRequest) → List TMessage
  | [] => []
  | calls :: rest => iterationMessages inv calls ++ scriptMessages inv rest

/-- Modelled from the spec: the Transport Boundary's error categories, with
their HTTP status codes. -/
inductive ErrorCategory where
  | auth
  | badRequest
  | paymentQuota
  | serverFault
deriving DecidableEq, Repr

/-- Modelled from the spec: status codes distinguish auth (401), bad request
(400), payment/quota (402), server fault (500). -/
def statusOf : ErrorCategory → Nat
  | ErrorCategory.auth => 401
  | ErrorCategory.badRequest => 400
  | ErrorCategory.paymentQuota => 402
  | ErrorCategory.serverFault => 500

/-- Modelled from the spec: the endpoint's reply — `{response: string}` on
success or an error payload with a `detail` string and a status code. -/
inductive HttpReply where
  | ok (response : String)
  | err (status : Nat) (detail : String)
deriving DecidableEq, Repr

/-- Modelled from the spec: the Transport Boundary — it accepts exactly a
`ChatRequest` body, invokes the handler, and returns `{response}` on success
or an error payload with a `detail` string and the category's status code. -/
def transportRespond (handle : ChatRequest → Except (ErrorCategory × String) String)
    (req : ChatRequest) : HttpReply :=
  match handle req with
  | Except.ok text => HttpReply.ok text
  | Except.error (cat, detail) => HttpReply.err (statusOf cat) detail

/-- Modelled from the spec: concurrent execution of one iteration's tool
calls — the buffer of completed results in completion order, tagged by
request index (`order` lists the indices in the order executions finish). -/
def completedBuffer (inv : ToolCallRequest → ToolResult)
    (calls : List ToolCallRequest) (order : List Nat) : List (Nat × ToolResult) :=
  order.map (fun j => (j, inv (calls.getD j { name := "", arguments := "" })))

/-- The result recorded for request index `j` in a completion buffer. -/
def lookupResult (completed : List (Nat × ToolResult)) (j : Nat) : Option ToolResult :=
  (completed.find? (fun p => p.1 == j)).map (fun p => p.2)

/-- Modelled from the spec: the controller appends results in request order
(indices `0, 1, …, n-1`) by reading each from the completion buffer,
regardless of the order in which executions finished. -/
def appendInRequestOrder (completed : List (Nat × ToolResult)) (n : Nat) :
    List (Option ToolResult) :=
  (List.range n).map (lookupResult completed)

/-- A demonstration Tool Registry `invoke` used in concrete runs: it echoes
the tool name with a success payload. -/
def invDemo : ToolCallRequest → ToolResult :=
  fun c => { tool := c.name, success := true, payload := "ok" }

/-- A demonstration gateway behavior: one tool-call iteration, then a final
text. -/
def demoGW : Nat → List TMessage → GatewayResponse :=
  fun i _ =>
    if i = 0 then GatewayResponse.toolCalls [{ name := "lookup_patient", arguments := "p1" }]
    else GatewayResponse.text "done"

/-! ## Theorems -/

/-- Every state the client reaches keeps the hard-coded greeting as the first
message: typing leaves `messages` unchanged and `handleSend` only appends. -/
lemma reachable_greeting_head (st : ChatState) (h : Reachable st) :
    ∃ rest, st.messages
      = { role := Role.assistant, content := initialGreeting, timestamp := 0 } :: rest := by
  induction h with
  | init => exact ⟨[], rfl⟩
  | type st s _ ih => exact ih
  | send st o t1 t2 _ ih =>
      obtain ⟨rest, hrest⟩ := ih
      by_cases hc : ((jsTrim st.input).isEmpty || st.isLoading) = true
      · exact ⟨rest, by simp [handleSend, hc, hrest]⟩
      · refine ⟨rest ++ [{ role := Role.user, content := jsTrim st.input, timestamp := t1 },
            { role := Role.assistant, content := replyOf o, timestamp := t2 }], ?_⟩
        simp [handleSend, hc, inFlightState, hrest]

/-- C9: a dispatched turn (non-blank trimmed input, not loading) appends
exactly two messages — first the trimmed user message, then exactly one
assistant message whose content is the reply for the outcome (the server's
text on success, the catch block's error content on any failure, recorded
with role assistant) — and the loading flag is false again afterwards; the
history projection of the new state therefore carries both entries into all
later turns. -/
theorem sendAppendsUserThenAssistant (st : ChatState) (o : ServerOutcome) (t1 t2 : Nat)
    (hin : (jsTrim st.input).isEmpty = false) (hload : st.isLoading = false) :
    (handleSend st o t1 t2).messages
        = st.messages
          ++ [{ role := Role.user, content := jsTrim st.input, timestamp := t1 },
              { role := Role.assistant, content := replyOf o, timestamp := t2 }] ∧
    (handleSend st o t1 t2).isLoading = false ∧
    (∀ e, replyOf (ServerOutcome.failure e) = errorContentOf e) ∧
    historyOf (handleSend st o t1 t2)
        = historyOf st
          ++ [{ role := Role.user, content := jsTrim st.input },
              { role := Role.assistant, content := replyOf o }] := by
  refine ⟨?_, ?_, fun e => rfl, ?_⟩ <;>
    simp [handleSend, hin, hload, inFlightState, historyOf]

/-- Witness for C9: the spec's first scenario — "What are your hours?" on the
initial state with a plain-text server reply appends exactly the user message
and the reply. -/
theorem sendAppendsUserThenAssistant_witness :
    (handleSend { initialState with input := "What are your hours?" }
        (ServerOutcome.success (some "We are open 9 to 5.")) 1 2).messages
      = initialState.messages
        ++ [{ role := Role.user, content := "What are your hours?", timestamp := 1 },
            { role := Role.assistant, content := "We are open 9 to 5.", timestamp := 2 }] ∧
    (handleSend { initialState with input := "What are your hours?" }
        (ServerOutcome.success (some "We are open 9 to 5.")) 1 2).isLoading = false := by
  have h := sendAppendsUserThenAssistant { initialState with input := "What are your hours?" }
      (ServerOutcome.success (some "We are open 9 to 5.")) 1 2 (by decide) rfl
  exact ⟨h.1, h.2.1⟩

/-- C10: the `conversation_history` posted on a dispatched turn is the
projection of the message list snapshot taken before the new user message is
appended (each entry keeping only role and content, timestamps stripped); the
trimmed message travels separately in the `message` field; the in-flight
state appends the user message only after that snapshot; and for every
reachable client state the history starts with the hard-coded greeting. -/
theorem historySnapshotBeforeAppend (st : ChatState) (t1 : Nat)
    (hr : Reachable st) (hin : (jsTrim st.input).isEmpty = false)
    (hload : st.isLoading = false) :
    requestOf st
        = some { message := jsTrim st.input, conversation_history := historyOf st } ∧
    historyOf st = st.messages.map (fun m => { role := m.role, content := m.content }) ∧
    (inFlightState st t1).messages
        = st.messages ++ [{ role := Role.user, content := jsTrim st.input, timestamp := t1 }] ∧
    (∃ rest, historyOf st
        = { role := Role.assistant, content := initialGreeting } :: rest) := by
  refine ⟨by simp [requestOf, hin, hload], rfl, rfl, ?_⟩
  obtain ⟨rest, hrest⟩ := reachable_greeting_head st hr
  exact ⟨rest.map (fun m => { role := m.role, content := m.content }),
    by simp [historyOf, hrest]⟩

/-- Witness for C10: typing "hi" into the freshly rendered client and
dispatching sends the trimmed message with a history that is exactly the
greeting entry — the pending user message is not in it. -/
theorem historySnapshotBeforeAppend_witness :
    requestOf { initialState with input := "hi" }
      = some { message := "hi",
               conversation_history :=
                 [{ role := Role.assistant, content := initialGreeting }] } := by
  have h := historySnapshotBeforeAppend { initialState with input := "hi" } 1
    (Reachable.type initialState "hi" Reachable.init) (by decide) rfl
  exact h.1

/-- C7: turns are serialized in the client session — while a turn is in
flight (`isLoading` is set), a second `handleSend` dispatch is rejected: it
changes nothing and posts no request; in particular every in-flight state
rejects dispatches. -/
theorem turnInFlightRejectsSecondSend (st : ChatState) (o : ServerOutcome) (t1 t2 : Nat)
    (h : st.isLoading = true) :
    handleSend st o t1 t2 = st ∧ requestOf st = none ∧
    (∀ (st0 : ChatState) (t0 : Nat) (o2 : ServerOutcome) (ta tb : Nat),
      handleSend (inFlightState st0 t0) o2 ta tb = inFlightState st0 t0 ∧
      requestOf (inFlightState st0 t0) = none) := by
  refine ⟨by simp [handleSend, h], by simp [requestOf, h], ?_⟩
  intro st0 t0 o2 ta tb
  exact ⟨by simp [handleSend, inFlightState], by simp [requestOf, inFlightState]⟩

/-- Witness for C7: a concrete loading state ignores a second dispatch. -/
theorem turnInFlightRejectsSecondSend_witness :
    handleSend { messages := [], input := "second message", isLoading := true }
        (ServerOutcome.success (some "late")) 3 4
      = { messages := [], input := "second message", isLoading := true } ∧
    requestOf { messages := [], input := "second message", isLoading := true } = none := by
  have h := turnInFlightRejectsSecondSend
    { messages := [], input := "second message", isLoading := true }
    (ServerOutcome.success (some "late")) 3 4 rfl
  exact ⟨h.1, h.2.1⟩

/-- C1 counterexample: for a server-fault (500) response the reply shown to
the user is the server-provided `detail` string verbatim — internal error
text is exposed and the reply is not fixed per category, since two 500
errors with different details yield different replies. -/
theorem serverDetailShownToUser :
    errorContentOf (SendError.response 500
        (some { detail := some "Traceback: KeyError in chat_handler line 42", message := none }))
      = "Traceback: KeyError in chat_handler line 42" ∧
    errorContentOf (SendError.response 500 (some { detail := some "detail A", message := none }))
      ≠ errorContentOf (SendError.response 500 (some { detail := some "detail B", message := none })) := by
  exact ⟨rfl, by decide⟩

/-- C1 (amended): replies for auth (401) and payment/quota (402) responses
are fixed messages determined by the category alone; for server-fault (500),
bad-request (400) and any other response status the reply is the
server-provided detail string whenever it is non-empty (so internal error
text supplied as `detail` is shown), and a fixed per-category fallback only
when the detail is empty. -/
theorem errorReplyPerCategory (data : Option ErrorData) (status : Nat) :
    errorContentOf (SendError.response 401 data) = fixed401 ∧
    errorContentOf (SendError.response 402 data) = fixed402 ∧
    (detailOf data = "" →
      errorContentOf (SendError.response 500 data) = fixed500 ∧
      errorContentOf (SendError.response 400 data) = fixed400 ∧
      (status ≠ 401 → status ≠ 402 → status ≠ 400 → status ≠ 500 →
        errorContentOf (SendError.response status data) = fixedOtherStatus status)) ∧
    (detailOf data ≠ "" → status ≠ 401 → status ≠ 402 →
      errorContentOf (SendError.response status data) = detailOf data) := by
  refine ⟨by simp [errorContentOf], by simp [errorContentOf], fun hd => ⟨?_, ?_, ?_⟩, ?_⟩
  · simp [errorContentOf, strOr, hd]
  · simp [errorContentOf, strOr, hd]
  · intro h1 h2 h3 h4
    simp [errorContentOf, strOr, hd, h1, h2, h3, h4]
  · intro hd h1 h2
    by_cases h5 : status = 500
    · subst h5; simp [errorContentOf, strOr, hd]
    · by_cases h6 : status = 400
      · subst h6; simp [errorContentOf, strOr, hd]
      · simp [errorContentOf, strOr, hd, h1, h2, h5, h6]

/-- Witness for C1 (amended): a 401 with an internal detail still shows the
fixed auth message; a 500 with no detail shows the fixed fallback; a 500 with
a detail shows the detail. -/
theorem errorReplyPerCategory_witness :
    errorContentOf (SendError.response 401
        (some { detail := some "internal auth stack", message := none })) = fixed401 ∧
    errorContentOf (SendError.response 500 none) = fixed500 ∧
    errorContentOf (SendError.response 500
        (some { detail := some "boom", message := none })) = "boom" := by
  refine ⟨(errorReplyPerCategory (some { detail := some "internal auth stack", message := none }) 0).1,
    ((errorReplyPerCategory none 0).2.2.1 rfl).1, ?_⟩
  exact (errorReplyPerCategory (some { detail := some "boom", message := none }) 500).2.2.2
    (by decide) (by decide) (by decide)

/-- The loop invokes the gateway at most `fuel` times. -/
lemma gatewayInputs_length_le (gw : Nat → List TMessage → GatewayResponse)
    (inv : ToolCallRequest → ToolResult) :
    ∀ (fuel i : Nat) (transcript : List TMessage),
      (gatewayInputs gw inv i transcript fuel).length ≤ fuel := by
  intro fuel
  induction fuel with
  | zero => intro i t; simp [gatewayInputs]
  | succ f ih =>
      intro i t
      cases hg : gw i t with
      | text s => simp [gatewayInputs, hg]
      | failure e => simp [gatewayInputs, hg]
      | toolCalls calls =>
          simp only [gatewayInputs, hg, List.length_cons]
          exact Nat.succ_le_succ (ih (i + 1) _)

/-- A gateway that keeps requesting tools exhausts the budget and stalls. -/
lemma runLoop_stalled_of_all_toolCalls (gw : Nat → List TMessage → GatewayResponse)
    (inv : ToolCallRequest → ToolResult)
    (h : ∀ i t, ∃ calls, gw i t = GatewayResponse.toolCalls calls) :
    ∀ (fuel i : Nat) (transcript : List TMessage),
      (runLoop gw inv i transcript fuel).1 = TurnOutcome.stalled := by
  intro fuel
  induction fuel with
  | zero => intro i t; rfl
  | succ f ih =>
      intro i t
      obtain ⟨calls, hc⟩ := h i t
      simp only [runLoop, hc]
      exact ih (i + 1) _

/-- C3: for every gateway behavior the controller's loop makes at most `cap`
gateway calls (it terminates in bounded iterations by construction), and a
behavior that requests tool calls on every iteration always ends the turn in
the `ConversationStalled` outcome — never in a text reply. -/
theorem loopBoundedAndStallsAtCap (gw : Nat → List TMessage → GatewayResponse)
    (inv : ToolCallRequest → ToolResult) (transcript : List TMessage) (cap : Nat) :
    (gatewayInputs gw inv 0 transcript cap).length ≤ cap ∧
    ((∀ i t, ∃ calls, gw i t = GatewayResponse.toolCalls calls) →
      (runLoop gw inv 0 transcript cap).1 = TurnOutcome.stalled ∧
      ∀ s, (runLoop gw inv 0 transcript cap).1 ≠ TurnOutcome.reply s) := by
  refine ⟨gatewayInputs_length_le gw inv cap 0 transcript, fun h => ?_⟩
  have hst := runLoop_stalled_of_all_toolCalls gw inv h cap 0 transcript
  refine ⟨hst, fun s hs => ?_⟩
  rw [hst] at hs
  exact TurnOutcome.noConfusion hs

/-- Witness for C3: a gateway that always requests one tool call stalls a
concrete turn at cap 3. -/
theorem loopBoundedAndStallsAtCap_witness :
    (runLoop (fun _ _ => GatewayResponse.toolCalls [{ name := "faq_answer", arguments := "q" }])
        invDemo 0 [] 3).1 = TurnOutcome.stalled := by
  have h := loopBoundedAndStallsAtCap
    (fun _ _ => GatewayResponse.toolCalls [{ name := "faq_answer", arguments := "q" }])
    invDemo [] 3
  exact (h.2 (fun i t => ⟨[{ name := "faq_answer", arguments := "q" }], rfl⟩)).1

/-- Indexing past its own end yields nothing. -/
lemma get?_length_self {α : Type} : ∀ (l : List α), l.get? l.length = none := by
  intro l
  induction l with
  | nil => rfl
  | cons a t ih => exact ih

/-- The element of an appended list at the first list's length. -/
lemma get?_append_self {α : Type} :
    ∀ (pre : List α) (x : α) (rest : List α), (pre ++ x :: rest).get? pre.length = some x := by
  intro pre
  induction pre with
  | nil => intro x rest; rfl
  | cons a l ih => intro x rest; exact ih x rest

/-- The messages a scripted run appends: one assistant tool-call message and
one result message per call for each scripted iteration. -/
lemma scriptMessages_length (inv : ToolCallRequest → ToolResult) :
    ∀ script, (scriptMessages inv script).length
      = script.length + (script.map List.length).sum := by
  intro script
  induction script with
  | nil => rfl
  | cons c rest ih =>
      simp only [scriptMessages, iterationMessages, List.length_append, List.length_cons,
        List.length_map, ih, List.map_cons, List.sum_cons]
      omega

/-- A scripted gateway behavior whose script fits under the budget ends with
the final text and appends exactly the scripted iteration messages and the
terminal assistant text. -/
lemma runLoop_script (inv : ToolCallRequest → ToolResult) (final : String) :
    ∀ (script pre : List (List ToolCallRequest)) (fuel : Nat) (transcript : List TMessage),
      script.length < fuel →
      runLoop (scriptGW (pre ++ script) final) inv pre.length transcript fuel
        = (TurnOutcome.reply final,
           transcript ++ scriptMessages inv script ++ [TMessage.assistantText final]) := by
  intro script
  induction script with
  | nil =>
      intro pre fuel t hf
      cases fuel with
      | zero => omega
      | succ f =>
          rw [List.append_nil]
          have hg : scriptGW pre final pre.length t = GatewayResponse.text final := by
            unfold scriptGW
            rw [get?_length_self]
          simp only [runLoop, hg]
          simp [scriptMessages]
  | cons c rest ih =>
      intro pre fuel t hf
      cases fuel with
      | zero => omega
      | succ f =>
          have hg : scriptGW (pre ++ c :: rest) final pre.length t
              = GatewayResponse.toolCalls c := by
            unfold scriptGW
            rw [get?_append_self]
          have step : runLoop (scriptGW (pre ++ c :: rest) final) inv pre.length t (f + 1)
              = runLoop (scriptGW (pre ++ c :: rest) final) inv (pre.length + 1)
                  (t ++ iterationMessages inv c) f := by
            simp only [runLoop, hg]
          rw [step]
          have hre : pre ++ c :: rest = (pre ++ [c]) ++ rest := by simp
          have hlen : pre.length + 1 = (pre ++ [c]).length := by simp
          rw [hre, hlen]
          rw [ih (pre ++ [c]) f (t ++ iterationMessages inv c) (by simp at hf; omega)]
          simp [scriptMessages]

/-- When every scripted iteration requests exactly one call, the appended
result messages number the same as the iterations. -/
lemma sum_lengths_of_singletons :
    ∀ (script : List (List ToolCallRequest)),
      (∀ calls ∈ script, calls.length = 1) →
      (script.map List.length).sum = script.length := by
  intro script
  induction script with
  | nil => intro _; rfl
  | cons c rest ih =>
      intro h
      simp only [List.map_cons, List.sum_cons, List.length_cons,
        h c (List.mem_cons_self c rest), ih (fun x hx => h x (List.mem_cons_of_mem c hx))]
      omega

/-- C2 (amended): a turn driven by a script of tool-call batches that
completes with the final assistant text after `k` tool-call iterations under
the cap has final transcript length = initial + 1 (user) + k (one assistant
tool-call message per iteration) + total number of requested tool calls (one
ToolResult message per call) + 1 (final assistant text); this equals
initial + 1 + 2·k + 1 exactly when each iteration requests one tool call. -/
theorem scriptedTurnTranscriptLength (script : List (List ToolCallRequest)) (final : String)
    (inv : ToolCallRequest → ToolResult) (history : List TMessage) (userText : String)
    (cap : Nat) (h : script.length < cap) :
    (handleTurn (scriptGW script final) inv history userText cap).1
        = TurnOutcome.reply final ∧
    (handleTurn (scriptGW script final) inv history userText cap).2.length
        = history.length + 1 + (script.length + (script.map List.length).sum) + 1 ∧
    ((∀ calls ∈ script, calls.length = 1) →
      (handleTurn (scriptGW script final) inv history userText cap).2.length
        = history.length + 1 + 2 * script.length + 1) := by
  have hrun := runLoop_script inv final script [] cap
    (history ++ [TMessage.userMsg userText]) h
  simp only [List.nil_append, List.length_nil] at hrun
  unfold handleTurn
  rw [hrun]
  refine ⟨rfl, ?_, fun h1 => ?_⟩
  · simp [scriptMessages_length inv script]
    omega
  · simp [scriptMessages_length inv script, sum_lengths_of_singletons script h1]
    omega

/-- Witness for C2 (amended): the spec's reschedule scenario — one iteration
with a single `reschedule_appointment` call on an empty history gives a final
transcript of 4 messages (user, tool-call request, tool result, confirmation
text). -/
theorem scriptedTurnTranscriptLength_witness :
    (handleTurn (scriptGW [[{ name := "reschedule_appointment", arguments := "a1" }]] "Rescheduled.")
        invDemo [] "Please reschedule me" 8).1 = TurnOutcome.reply "Rescheduled." ∧
    (handleTurn (scriptGW [[{ name := "reschedule_appointment", arguments := "a1" }]] "Rescheduled.")
        invDemo [] "Please reschedule me" 8).2.length = 0 + 1 + 2 * 1 + 1 := by
  have h := scriptedTurnTranscriptLength
    [[{ name := "reschedule_appointment", arguments := "a1" }]] "Rescheduled."
    invDemo [] "Please reschedule me" 8 (by decide)
  exact ⟨h.1, h.2.2 (by simp)⟩

/-- C2 counterexample: a turn that completes with the final text after k = 1
tool-call iteration (1 ≤ cap = 8) in which the gateway requested two tool
calls: the final transcript has 5 messages on an empty initial transcript,
not 0 + 1 + 2·1 + 1 = 4 as the claim predicts. -/
theorem twoCallIterationBreaksLengthFormula :
    (handleTurn (scriptGW [[{ name := "lookup_patient", arguments := "p1" },
          { name := "faq_answer", arguments := "q1" }]] "done") invDemo [] "hi" 8).1
      = TurnOutcome.reply "done" ∧
    (handleTurn (scriptGW [[{ name := "lookup_patient", arguments := "p1" },
          { name := "faq_answer", arguments := "q1" }]] "done") invDemo [] "hi" 8).2.length
      = 5 ∧ (5 : Nat) ≠ 0 + 1 + 2 * 1 + 1 := by
  exact ⟨rfl, rfl, by decide⟩

/-- Consecutive gateway inputs: whatever the gateway behavior, the transcript
passed at the next invocation is the previous one with exactly that
iteration's messages appended. -/
lemma gatewayInputs_consecutive (gw : Nat → List TMessage → GatewayResponse)
    (inv : ToolCallRequest → ToolResult) :
    ∀ (fuel i n : Nat) (transcript t1 t2 : List TMessage),
      (gatewayInputs gw inv i transcript fuel).get? n = some t1 →
      (gatewayInputs gw inv i transcript fuel).get? (n + 1) = some t2 →
      ∃ calls, gw (i + n) t1 = GatewayResponse.toolCalls calls ∧
        t2 = t1 ++ iterationMessages inv calls := by
  intro fuel
  induction fuel with
  | zero =>
      intro i n t t1 t2 h1 _
      simp [gatewayInputs] at h1
  | succ f ih =>
      intro i n t t1 t2 h1 h2
      cases hg : gw i t with
      | text s =>
          simp only [gatewayInputs, hg] at h2
          cases n <;> simp at h2
      | failure e =>
          simp only [gatewayInputs, hg] at h2
          cases n <;> simp at h2
      | toolCalls calls =>
          simp only [gatewayInputs, hg] at h1 h2
          cases n with
          | zero =>
              simp only [List.get?_cons_zero, Option.some.injEq] at h1
              subst h1
              refine ⟨calls, by simpa using hg, ?_⟩
              cases f with
              | zero => simp [gatewayInputs] at h2
              | succ g =>
                  simp only [gatewayInputs, List.get?_cons_succ, List.get?_cons_zero,
                    Option.some.injEq] at h2
                  exact h2.symm
          | succ m =>
              simp only [List.get?_cons_succ] at h1 h2
              have := ih (i + 1) m (t ++ iterationMessages inv calls) t1 t2 h1 h2
              have harith : i + 1 + m = i + (m + 1) := by omega
              rwa [harith] at this

/-- C4: for every gateway behavior and every iteration N of a turn, the
transcript passed to the LLM Gateway at iteration N + 1 equals the transcript
passed at iteration N with exactly the messages produced during iteration N
(the assistant tool-call message and its tool results) appended at the end —
no prior entry is mutated, removed or reordered. -/
theorem transcriptMonotoneAcrossIterations (gw : Nat → List TMessage → GatewayResponse)
    (inv : ToolCallRequest → ToolResult) (transcript : List TMessage) (cap n : Nat)
    (t1 t2 : List TMessage)
    (h1 : (gatewayInputs gw inv 0 transcript cap).get? n = some t1)
    (h2 : (gatewayInputs gw inv 0 transcript cap).get? (n + 1) = some t2) :
    ∃ calls, gw n t1 = GatewayResponse.toolCalls calls ∧
      t2 = t1 ++ iterationMessages inv calls := by
  have h := gatewayInputs_consecutive gw inv cap 0 n transcript t1 t2 h1 h2
  simpa using h

/-- Witness for C4: the demonstration gateway's second input extends its
first by exactly the first iteration's messages. -/
theorem transcriptMonotoneAcrossIterations_witness :
    ∃ calls, demoGW 0 [] = GatewayResponse.toolCalls calls ∧
      iterationMessages invDemo [{ name := "lookup_patient", arguments := "p1" }]
        = [] ++ iterationMessages invDemo calls :=
  transcriptMonotoneAcrossIterations demoGW invDemo [] 8 0 []
    (iterationMessages invDemo [{ name := "lookup_patient", arguments := "p1" }]) rfl rfl

/-- A list's first hit for its own member key is that member. -/
lemma find?_eq_self (j : Nat) :
    ∀ (l : List Nat), j ∈ l → l.find? (fun k => k == j) = some j := by
  intro l
  induction l with
  | nil => intro h; cases h
  | cons a l ih =>
      intro h
      by_cases ha : (a == j) = true
      · have haj : a = j := by simpa using ha
        subst haj
        exact List.find?_cons_of_pos _ ha
      · have hstep : List.find? (fun k => k == j) (a :: l)
            = List.find? (fun k => k == j) l :=
          List.find?_cons_of_neg _ ha
        rw [hstep]
        refine ih ?_
        rcases List.mem_cons.mp h with h1 | h1
        · exact absurd (by simp [h1]) ha
        · exact h1

/-- Reading the completion buffer at a request index that did complete yields
that request's tool result, for any completion order containing it. -/
lemma lookupResult_buffer (inv : ToolCallRequest → ToolResult)
    (calls : List ToolCallRequest) (order : List Nat) (j : Nat) (hj : j ∈ order) :
    lookupResult (completedBuffer inv calls order) j
      = some (inv (calls.getD j { name := "", arguments := "" })) := by
  unfold lookupResult completedBuffer
  rw [List.find?_map]
  have hp : ((fun p => p.1 == j) ∘
      fun k => (k, inv (calls.getD k { name := "", arguments := "" })))
      = fun k => k == j := rfl
  rw [hp, find?_eq_self j order hj]
  rfl

/-- Reading the results back by request index `0, …, n-1` recovers the
requests' own order. -/
lemma range_map_getD (inv : ToolCallRequest → ToolResult) :
    ∀ (calls : List ToolCallRequest),
      (List.range calls.length).map
          (fun j => some (inv (calls.getD j { name := "", arguments := "" })))
        = calls.map (fun c => some (inv c)) := by
  intro calls
  induction calls with
  | nil => rfl
  | cons c cs ih =>
      rw [List.length_cons, List.range_succ_eq_map, List.map_cons, List.map_map]
      have htail : List.map
          ((fun j => some (inv ((c :: cs).getD j { name := "", arguments := "" })))
            ∘ Nat.succ) (List.range cs.length)
          = List.map (fun j => some (inv (cs.getD j { name := "", arguments := "" })))
              (List.range cs.length) :=
        List.map_congr_left (fun j hj => rfl)
      rw [htail, ih]
      rfl

/-- C6: when an iteration's tool calls execute in any completion order (any
permutation of the request indices), the results the controller appends, read
in request order from the completion buffer, are exactly the requests' results
in request order — independent of the completion order; these are the
ToolResult messages `iterationMessages` folds into the transcript after the
assistant tool-call message. -/
theorem resultsAppendedInRequestOrder (inv : ToolCallRequest → ToolResult)
    (calls : List ToolCallRequest) (order : List Nat)
    (h : order.Perm (List.range calls.length)) :
    appendInRequestOrder (completedBuffer inv calls order) calls.length
      = calls.map (fun c => some (inv c)) ∧
    iterationMessages inv calls
      = TMessage.assistantToolCalls calls :: (calls.map inv).map TMessage.toolResultMsg := by
  refine ⟨?_, rfl⟩
  unfold appendInRequestOrder
  have hstep : ∀ j ∈ List.range calls.length,
      lookupResult (completedBuffer inv calls order) j
        = some (inv (calls.getD j { name := "", arguments := "" })) := by
    intro j hj
    exact lookupResult_buffer inv calls order j (h.mem_iff.mpr hj)
  rw [List.map_congr_left hstep]
  exact range_map_getD inv calls

/-- Witness for C6: two tool calls completing in reversed order are still
appended in request order. -/
theorem resultsAppendedInRequestOrder_witness :
    appendInRequestOrder
        (completedBuffer invDemo
          [{ name := "lookup_patient", arguments := "p1" },
           { name := "create_appointment", arguments := "a1" }] [1, 0]) 2
      = [some (invDemo { name := "lookup_patient", arguments := "p1" }),
         some (invDemo { name := "create_appointment", arguments := "a1" })] := by
  have h := resultsAppendedInRequestOrder invDemo
    [{ name := "lookup_patient", arguments := "p1" },
     { name := "create_appointment", arguments := "a1" }] [1, 0] (by decide)
  exact h.1

/-- C8: a gateway call that times out makes the controller fail with the
`ProviderTimeout` condition and leaves no partial state — the resulting
transcript is exactly the transcript as it stood at the failed call, with no
half-appended tool results; the client's HTTP request carries a configured
finite timeout of 60000 ms, and an aborted or timed-out request maps to the
one fixed timeout apology text. -/
theorem timeoutFailsCleanly (gw : Nat → List TMessage → GatewayResponse)
    (inv : ToolCallRequest → ToolResult) (i : Nat) (transcript : List TMessage)
    (fuel : Nat) (m : String)
    (h : gw i transcript = GatewayResponse.failure ProviderError.timeout) :
    runLoop gw inv i transcript (fuel + 1)
        = (TurnOutcome.failed ProviderError.timeout, transcript) ∧
    axiosTimeoutMs = 60000 ∧
    errorContentOf (SendError.request "ECONNABORTED" m) = fixedTimeoutMsg ∧
    (m.containsSubstr "timeout" = true →
      ∀ c, errorContentOf (SendError.request c m) = fixedTimeoutMsg) := by
  refine ⟨by simp [runLoop, h], rfl, ?_, ?_⟩
  · simp [errorContentOf]
  · intro hm c
    simp [errorContentOf, hm]

/-- Witness for C8: a gateway that times out immediately aborts a concrete
turn with `ProviderTimeout` and the untouched transcript; the axios timeout
message maps to the fixed apology. -/
theorem timeoutFailsCleanly_witness :
    runLoop (fun _ _ => GatewayResponse.failure ProviderError.timeout) invDemo 0
        [TMessage.userMsg "hi"] 8
      = (TurnOutcome.failed ProviderError.timeout, [TMessage.userMsg "hi"]) ∧
    errorContentOf (SendError.request "ECONNABORTED" "timeout of 60000ms exceeded")
      = fixedTimeoutMsg := by
  have h := timeoutFailsCleanly (fun _ _ => GatewayResponse.failure ProviderError.timeout)
    invDemo 0 [TMessage.userMsg "hi"] 7 "timeout of 60000ms exceeded" rfl
  exact ⟨h.1, h.2.2.1⟩

/-- C5: the Transport Boundary accepts exactly a `ChatRequest` body
(`{message, conversation_history}` with role/content entries) and returns
`{response}` on success or an error payload with a `detail` string whose
status code is the category's; the four categories auth, bad request,
payment/quota and server fault carry the distinct codes 401, 400, 402, 500,
and a dispatched client turn posts exactly such a body. -/
theorem transportShapeAndStatusCodes
    (handle : ChatRequest → Except (ErrorCategory × String) String) (req : ChatRequest)
    (st : ChatState) (hin : (jsTrim st.input).isEmpty = false)
    (hload : st.isLoading = false) :
    (∀ s, handle req = Except.ok s → transportRespond handle req = HttpReply.ok s) ∧
    (∀ cat detail, handle req = Except.error (cat, detail) →
      transportRespond handle req = HttpReply.err (statusOf cat) detail) ∧
    (statusOf ErrorCategory.auth = 401 ∧ statusOf ErrorCategory.badRequest = 400 ∧
     statusOf ErrorCategory.paymentQuota = 402 ∧ statusOf ErrorCategory.serverFault = 500) ∧
    (∀ c1 c2, statusOf c1 = statusOf c2 → c1 = c2) ∧
    requestOf st = some { message := jsTrim st.input, conversation_history := historyOf st } := by
  refine ⟨fun s hs => by simp [transportRespond, hs],
    fun cat detail hd => by simp [transportRespond, hd],
    ⟨rfl, rfl, rfl, rfl⟩, ?_, by simp [requestOf, hin, hload]⟩
  intro c1 c2 hc
  cases c1 <;> cases c2 <;> first
    | rfl
    | exact absurd hc (by simp [statusOf])

/-- Witness for C5: a handler failing with the payment/quota category is
surfaced as a 402 with its detail string, and a concrete dispatched state
posts the `{message, conversation_history}` body. -/
theorem transportShapeAndStatusCodes_witness :
    transportRespond (fun _ => Except.error (ErrorCategory.paymentQuota, "quota exceeded"))
        { message := "hi", conversation_history := [] }
      = HttpReply.err 402 "quota exceeded" ∧
    requestOf { messages := [], input := "hi", isLoading := false }
      = some { message := "hi", conversation_history := [] } := by
  have h := transportShapeAndStatusCodes
    (fun _ => Except.error (ErrorCategory.paymentQuota, "quota exceeded"))
    { message := "hi", conversation_history := [] }
    { messages := [], input := "hi", isLoading := false } (by decide) rfl
  exact ⟨h.2.1 ErrorCategory.paymentQuota "quota exceeded" rfl, h.2.2.2.2⟩

end Chatbot
